import Mathlib

/-!
Verification development for a crypto liquidation-tracking pipeline
(stream ingest, cross-venue market-data aggregation, OI-surge scan,
subscriber alert fan-out, retention, and reporting).

Numbers are modelled as rationals (`ℚ`), timestamps as milliseconds since
the Unix epoch (`ℕ`), and persisted instants as ISO-8601 strings, exactly
as the program stores them.  Caches are explicit association lists keyed
by string, storing the value together with the TTL (in seconds) that was
passed to the backend.  Fallible upstream fetches are modelled as
`Option`-valued inputs: `none` is a request that threw (network / non-2xx
error) and was caught by the surrounding `try`/`catch`.
-/

namespace Crypto

/-- The two persisted liquidation sides, source string literals
`'short liquidation' | 'long liquidation'`. -/
inductive Side where
  | shortLiquidation
  | longLiquidation
deriving DecidableEq, Repr

/-- Persisted liquidation event (`LiquidationData` in the source). -/
structure LiquidationData where
  symbol : String
  side : Side
  price : ℚ
  quantity : ℚ
  time : String
deriving DecidableEq, Repr

/-- Value of an ASCII digit character. -/
def digitVal (c : Char) : ℕ := c.toNat - '0'.toNat

/-- Fold a digit list into a natural number. -/
def digitsToNat (ds : List Char) : ℕ :=
  ds.foldl (fun acc c => acc * 10 + digitVal c) 0

/-- The syntactic pieces of a decimal literal: sign, integer digits,
fraction digits (with their count), whether any digit was seen, and the
optional exponent. -/
structure ParsedNumber where
  neg : Bool
  intNat : ℕ
  fracNat : ℕ
  fracLen : ℕ
  hasDigits : Bool
  expNeg : Bool
  expNat : ℕ
deriving DecidableEq, Repr

/-- Scan a decimal string into its pieces: optional leading spaces and
sign, integer digits, optional `.`-separated fraction digits, optional
`e`/`E` exponent; trailing garbage is ignored. -/
def parseParts (s : String) : ParsedNumber :=
  let cs := s.data.dropWhile (fun c => c = ' ')
  let (neg, cs) : Bool × List Char :=
    match cs with
    | '-' :: rest => (true, rest)
    | '+' :: rest => (false, rest)
    | rest => (false, rest)
  let intDigits := cs.takeWhile Char.isDigit
  let cs := cs.drop intDigits.length
  let (fracDigits, cs) : List Char × List Char :=
    match cs with
    | '.' :: rest => (rest.takeWhile Char.isDigit, rest.drop (rest.takeWhile Char.isDigit).length)
    | rest => ([], rest)
  let (expNeg, expDigits) : Bool × List Char :=
    match cs with
    | 'e' :: '-' :: rest => (true, rest.takeWhile Char.isDigit)
    | 'e' :: '+' :: rest => (false, rest.takeWhile Char.isDigit)
    | 'e' :: rest => (false, rest.takeWhile Char.isDigit)
    | 'E' :: '-' :: rest => (true, rest.takeWhile Char.isDigit)
    | 'E' :: '+' :: rest => (false, rest.takeWhile Char.isDigit)
    | 'E' :: rest => (false, rest.takeWhile Char.isDigit)
    | _ => (false, [])
  { neg := neg
    intNat := digitsToNat intDigits
    fracNat := digitsToNat fracDigits
    fracLen := fracDigits.length
    hasDigits := !(intDigits.isEmpty && fracDigits.isEmpty)
    expNeg := expNeg
    expNat := digitsToNat expDigits }

/-- Assemble the rational value of the scanned pieces. -/
def partsToRat (p : ParsedNumber) : ℚ :=
  if p.hasDigits then
    (if p.neg then -1 else 1) *
      ((p.intNat : ℚ) + (p.fracNat : ℚ) / (10 : ℚ) ^ p.fracLen) *
      (if p.expNeg then ((10 : ℚ) ^ p.expNat)⁻¹ else (10 : ℚ) ^ p.expNat)
  else 0

/-- Model of JavaScript `parseFloat` restricted to finite results.
Inputs that parse to `NaN` (no digits at all) are mapped to `0`, matching
the program's `safeFloat` wrapper which sends `NaN` to `0`; the raw-`NaN`
distinction is never observable in the verified paths. -/
def parseDecimal (s : String) : ℚ :=
  partsToRat (parseParts s)

/-- Left-pad the decimal rendering of `n` with zeros to width `w`. -/
def padNat (w : ℕ) (n : ℕ) : String :=
  let d := toString n
  String.mk (List.replicate (w - d.length) '0') ++ d

/-- Proleptic-Gregorian civil date from a day count since 1970-01-01
(`days ≥ 0`), returning `(year, month, day)`.  Standard
days-to-civil-date algorithm over 400-year eras. -/
def civilFromDays (days : ℕ) : ℕ × ℕ × ℕ :=
  let z := days + 719468
  let era := z / 146097
  let doe := z % 146097
  let yoe := ((doe + doe / 36524) - (doe / 1460 + doe / 146096)) / 365
  let doy := doe - ((365 * yoe + yoe / 4) - yoe / 100)
  let mp := (5 * doy + 2) / 153
  let d := (doy - (153 * mp + 2) / 5) + 1
  let m := if mp < 10 then mp + 3 else mp - 9
  let y := yoe + era * 400 + (if m ≤ 2 then 1 else 0)
  (y, m, d)

/-- Model of JavaScript `new Date(ms).toISOString()` for a nonnegative
millisecond timestamp: the UTC ISO-8601 rendering
`YYYY-MM-DDTHH:mm:ss.sssZ`. -/
def toISOString (ms : ℕ) : String :=
  let milli := ms % 1000
  let totalSecs := ms / 1000
  let sec := totalSecs % 60
  let minute := totalSecs / 60 % 60
  let hour := totalSecs / 3600 % 24
  let days := totalSecs / 86400
  let (y, m, d) := civilFromDays days
  padNat 4 y ++ "-" ++ padNat 2 m ++ "-" ++ padNat 2 d ++ "T" ++
    padNat 2 hour ++ ":" ++ padNat 2 minute ++ ":" ++ padNat 2 sec ++ "." ++
    padNat 3 milli ++ "Z"

/-- The `o` object of an upstream `forceOrder` frame: symbol `s`, taker
side `S`, price `p`, quantity `q` (decimal strings) and trade time `T`
in epoch milliseconds. -/
structure ForceOrderPayload where
  s : String
  S : String
  p : String
  q : String
  T : ℕ
deriving DecidableEq, Repr

/-- `LiquidationListener.processLiquidation`: construct the persisted
liquidation event from a decoded `forceOrder` payload. -/
def processLiquidation (o : ForceOrderPayload) : LiquidationData :=
  { symbol := o.s
    side := if o.S = "BUY" then Side.shortLiquidation else Side.longLiquidation
    price := parseDecimal o.p
    quantity := parseDecimal o.q
    time := toISOString o.T }

/-- A decoded combined-stream frame: `data` is absent for non-data
frames; `e` is the event type. -/
structure StreamFrame where
  data : Option (String × ForceOrderPayload)
deriving DecidableEq, Repr

/-- The WebSocket message handler: process the payload only when the
frame carries `data` with event type `forceOrder`; everything else is
ignored. -/
def handleStreamMessage (frame : StreamFrame) : Option LiquidationData :=
  match frame.data with
  | some (e, o) => if e = "forceOrder" then some (processLiquidation o) else none
  | none => none

/-- TTL cache (the Redis layer): an association list from keys to
`(value, ttlSeconds)`; `set` prepends, `find` returns the newest entry. -/
def Cache (α : Type) : Type := List (String × α × ℕ)

/-- The empty cache. -/
def Cache.empty {α : Type} : Cache α := []

/-- Look up a key, returning the stored value together with its TTL. -/
def Cache.find {α : Type} : Cache α → String → Option (α × ℕ)
  | [], _ => none
  | (k, v, t) :: rest, key => if k = key then some (v, t) else Cache.find rest key

/-- `RedisService.get`: the stored value without its TTL. -/
def Cache.get {α : Type} (c : Cache α) (key : String) : Option α :=
  (c.find key).map Prod.fst

/-- `RedisService.set` with a TTL in seconds. -/
def Cache.set {α : Type} (c : Cache α) (key : String) (v : α) (ttl : ℕ) : Cache α :=
  (key, v, ttl) :: c

/-- `RedisService.getOrFetch` specialised to numbers, with JavaScript
truthiness: a cached `0` is treated as a miss, and a freshly produced `0`
is returned but not stored.  `producer` is the already-settled result of
the fetch closure. -/
def Cache.getOrFetchQ (c : Cache ℚ) (key : String) (producer : ℚ) (ttl : ℕ) : ℚ × Cache ℚ :=
  match c.get key with
  | some v => if v ≠ 0 then (v, c) else
      (producer, if producer ≠ 0 then c.set key producer ttl else c)
  | none => (producer, if producer ≠ 0 then c.set key producer ttl else c)

/-- Per-exchange normalised market data (`ExchangeData` in the source).
`nextFundingTime` is a raw venue timestamp; the one venue that may leave
it absent is modelled with `0`, which no verified path observes. -/
structure ExchangeData where
  name : String
  price : ℚ
  fundingRate : ℚ
  nextFundingTime : ℚ
  openInterest : ℚ
  url : String
deriving DecidableEq, Repr

/-- `safeFloat`: `null`/`undefined`/`''` and unparsable values become `0`. -/
def safeFloat (v : Option String) : ℚ :=
  match v with
  | none => 0
  | some s => parseDecimal s

/-- The fields of the three Binance responses that `fetchBinance` reads:
`premiumIndex` (symbol, funding), `openInterest` and `ticker/price`. -/
structure BinanceRaw where
  premiumSymbol : Option String
  lastFundingRate : Option String
  nextFundingTime : ℚ
  openInterest : Option String
  tickerPrice : Option String
deriving DecidableEq, Repr

/-- `MarketDataService.fetchBinance`: `none` input is a thrown request
(caught, returning `null`); a response without `premium.symbol` also
yields `null`.  Binance open interest is in coins and is multiplied by
the last price to get USD. -/
def fetchBinance (base : String) (resp : Option BinanceRaw) : Option ExchangeData :=
  match resp with
  | none => none
  | some r =>
    match r.premiumSymbol with
    | none => none
    | some ps =>
      if ps = "" then none
      else
        let price := safeFloat r.tickerPrice
        some
          { name := "Binance 🔶"
            price := price
            fundingRate := safeFloat r.lastFundingRate
            nextFundingTime := r.nextFundingTime
            openInterest := safeFloat r.openInterest * price
            url := "https://www.binance.com/en/futures/" ++ base ++ "USDT" }

/-- First element of the Bybit ticker list. -/
structure BybitTicker where
  lastPrice : Option String
  openInterest : Option String
  fundingRate : Option String
  nextFundingTime : ℚ
deriving DecidableEq, Repr

/-- The Bybit `tickers` response: return code and the head of
`result.list` (`none` when the list is empty, in which case the source
dereferences `undefined` and the `catch` yields `null`). -/
structure BybitRaw where
  retCode : ℤ
  ticker : Option BybitTicker
deriving DecidableEq, Repr

/-- `MarketDataService.fetchBybit`: linear-contract open interest is in
coins and is multiplied by the last price. -/
def fetchBybit (base : String) (resp : Option BybitRaw) : Option ExchangeData :=
  match resp with
  | none => none
  | some r =>
    if r.retCode ≠ 0 then none
    else
      match r.ticker with
      | none => none
      | some t =>
        let price := safeFloat t.lastPrice
        some
          { name := "Bybit ⚫️"
            price := price
            fundingRate := safeFloat t.fundingRate
            nextFundingTime := t.nextFundingTime
            openInterest := safeFloat t.openInterest * price
            url := "https://www.bybit.com/trade/usdt/" ++ base ++ "USDT" }

/-- MEXC contract `ticker` response fields read by `fetchMexc`. -/
structure MexcTicker where
  success : Bool
  lastPrice : Option String
  holdVol : Option String
deriving DecidableEq, Repr

/-- MEXC `funding_rate` response; `data` may be absent (the source uses
optional chaining). -/
structure MexcFunding where
  fundingRate : Option String
  nextFundingTime : ℚ
deriving DecidableEq, Repr

/-- MEXC contract `detail` response as read by `getMexcContractSize`:
success flag, presence of `data`, and the `contractSize` field. -/
structure MexcDetail where
  success : Bool
  hasData : Bool
  contractSize : Option String
deriving DecidableEq, Repr

/-- `MarketDataService.getMexcContractSize`: read-through cached (24 h)
contract size.  A thrown request (`none`) defaults to `1`; an
unsuccessful or data-less response defaults to `0.0001`. -/
def getMexcContractSize (c : Cache ℚ) (symbol : String) (resp : Option MexcDetail) :
    ℚ × Cache ℚ :=
  let producer : ℚ :=
    match resp with
    | none => 1
    | some r => if r.success && r.hasData then safeFloat r.contractSize else 1 / 10000
  Cache.getOrFetchQ c ("mexc_size:" ++ symbol) producer 86400

/-- `MarketDataService.fetchMexc`: `holdVol` is a contract count,
multiplied by the contract size and then by the price to get USD. -/
def fetchMexc (base : String) (ticker : Option MexcTicker) (funding : Option MexcFunding)
    (contractSize : ℚ) : Option ExchangeData :=
  match ticker, funding with
  | some t, some f =>
    if !t.success then none
    else
      let price := safeFloat t.lastPrice
      let contracts := safeFloat t.holdVol
      some
        { name := "MEXC 🔵"
          price := price
          fundingRate := safeFloat f.fundingRate
          nextFundingTime := f.nextFundingTime
          openInterest := contracts * contractSize * price
          url := "https://futures.mexc.com/exchange/" ++ base ++ "_USDT" }
  | _, _ => none

/-- `normalizeSymbol`: upper-case, strip non-alphanumerics, strip a
trailing `USDT`. -/
def normalizeSymbol (input : String) : String :=
  let up := (input.toList.map Char.toUpper).filter (fun c =>
    ('A' ≤ c ∧ c ≤ 'Z') ∨ ('0' ≤ c ∧ c ≤ '9'))
  let s := String.mk up
  if s.endsWith "USDT" then s.dropRight 4 else s

/-- Cross-venue aggregated stats (`AggregatedStats` in the source). -/
structure AggregatedStats where
  symbol : String
  totalOpenInterest : ℚ
  avgPrice : ℚ
  exchanges : List ExchangeData
  timestamp : ℕ
deriving DecidableEq, Repr

/-- Descending-open-interest order used to sort the `exchanges` array. -/
def oiDesc (a b : ExchangeData) : Prop := a.openInterest ≥ b.openInterest

instance : DecidableRel oiDesc := fun a b =>
  inferInstanceAs (Decidable (a.openInterest ≥ b.openInterest))

instance : IsTotal ExchangeData oiDesc := ⟨fun a b => le_total b.openInterest a.openInterest⟩

instance : IsTrans ExchangeData oiDesc := ⟨fun _ _ _ h h' => le_trans h' h⟩

/-- `MarketDataService.getAggregatedStats` given the three settled venue
results (`none` is a failed or empty venue).  The three fetches are
independent; an empty result set yields `null` and writes nothing, else
the aggregate is built, sorted by OI descending, and cached for 60 s. -/
def getAggregatedStats (symbolInput : String) (binance bybit mexc : Option ExchangeData)
    (c : Cache AggregatedStats) (now : ℕ) : Option AggregatedStats × Cache AggregatedStats :=
  let baseSymbol := normalizeSymbol symbolInput
  let cacheKey := "market_agg_v6:" ++ baseSymbol
  let exchanges := [binance, bybit, mexc].filterMap id
  if exchanges.isEmpty then (none, c)
  else
    let totalOI := (exchanges.map ExchangeData.openInterest).sum
    let avgPrice := (exchanges.map ExchangeData.price).sum / exchanges.length
    let sorted := exchanges.insertionSort oiDesc
    let stats : AggregatedStats :=
      { symbol := baseSymbol
        totalOpenInterest := totalOI
        avgPrice := avgPrice
        exchanges := sorted
        timestamp := now }
    (some stats, c.set cacheKey stats 60)

/-- OI surge record (`OISurge` in the source). -/
structure OISurge where
  symbol : String
  previousOI : ℚ
  currentOI : ℚ
  percentChange : ℚ
  price : ℚ
deriving DecidableEq, Repr

/-- One iteration of the `checkOIFluctuations` loop for a symbol whose
aggregated stats are `stats` (`none` means `getAggregatedStats` returned
`null` and the symbol is skipped).  Reads the prior snapshot, always
rewrites it with a 24 h TTL, and emits a surge when a truthy (nonzero)
prior exists and the absolute percent change reaches the 2.5 threshold. -/
def processOISymbol (stats : Option AggregatedStats) (c : Cache ℚ) :
    Cache ℚ × List OISurge :=
  match stats with
  | none => (c, [])
  | some st =>
    let key := "oi_last:" ++ st.symbol
    let lastOI := c.get key
    let c' := c.set key st.totalOpenInterest 86400
    match lastOI with
    | none => (c', [])
    | some v =>
      if v ≠ 0 then
        let diffPercent := (st.totalOpenInterest - v) / v * 100
        if |diffPercent| ≥ 5 / 2 then
          (c', [{ symbol := st.symbol
                  previousOI := v
                  currentOI := st.totalOpenInterest
                  percentChange := diffPercent
                  price := st.avgPrice }])
        else (c', [])
      else (c', [])

/-- `MarketDataService.checkOIFluctuations`: scan a symbol list against a
per-symbol stats oracle, threading the snapshot cache and accumulating
surges in order. -/
def checkOIFluctuations (symbols : List String) (stats : String → Option AggregatedStats)
    (c : Cache ℚ) : Cache ℚ × List OISurge :=
  match symbols with
  | [] => (c, [])
  | sym :: rest =>
    let (c', surges) := processOISymbol (stats sym) c
    let (c'', restSurges) := checkOIFluctuations rest stats c'
    (c'', surges ++ restSurges)

/-- Subscriber document (`User` in the source). -/
structure User where
  chatId : ℤ
  firstName : Option String
  username : Option String
  trackedSymbols : List String
  notificationsEnabled : Bool
  reportIntervalHours : ℕ
  minLiquidationAlert : ℚ
  createdAt : ℕ
deriving DecidableEq, Repr

/-- `DatabaseService.findUsersTrackingSymbol`: subscribers with
notifications enabled whose tracked list contains the symbol. -/
def findUsersTrackingSymbol (users : List User) (symbol : String) : List User :=
  users.filter (fun u => u.notificationsEnabled && decide (symbol ∈ u.trackedSymbols))

/-- The subscriber loop of
`TelegramService.sendRealtimeLiquidationAlert`: among the tracking query
results, those with notifications enabled and `price × quantity` at or
above their threshold are sent the message. -/
def sendRealtimeRecipients (users : List User) (liq : LiquidationData) : List User :=
  (findUsersTrackingSymbol users liq.symbol).filter
    (fun u => u.notificationsEnabled && decide (liq.price * liq.quantity ≥ u.minLiquidationAlert))

/-- Cascade side (`'long' | 'short'` in the source buffer). -/
inductive CascadeSide where
  | long
  | short
deriving DecidableEq, Repr

/-- In-memory cascade accumulator (`CascadeBuffer` in the source). -/
structure CascadeBuffer where
  count : ℕ
  totalVolume : ℚ
  minPrice : ℚ
  maxPrice : ℚ
  side : CascadeSide
  startTime : ℕ
deriving DecidableEq, Repr

/-- The subscriber loop of `TelegramService.sendCascadeAlert`: the filter
uses the buffer's `totalVolume` as the notional. -/
def sendCascadeRecipients (users : List User) (symbol : String) (buffer : CascadeBuffer) :
    List User :=
  (findUsersTrackingSymbol users symbol).filter
    (fun u => u.notificationsEnabled && decide (buffer.totalVolume ≥ u.minLiquidationAlert))

/-- An alert routed through the subscriber fan-out. -/
inductive Alert where
  | realtime (liq : LiquidationData)
  | cascade (symbol : String) (buffer : CascadeBuffer)
deriving DecidableEq, Repr

/-- The subscribers an alert is sent to. -/
def alertRecipients (users : List User) : Alert → List User
  | Alert.realtime liq => sendRealtimeRecipients users liq
  | Alert.cascade symbol buffer => sendCascadeRecipients users symbol buffer

/-- The alerts of a fixed stream that a given subscriber receives when
the subscriber database consists of that subscriber. -/
def receivedAlerts (u : User) (stream : List Alert) : List Alert :=
  stream.filter (fun a => decide (u ∈ alertRecipients [u] a))

def updateFirst {α : Type} (p : α → Bool) (f : α → α) : List α → List α
  | [] => []
  | x :: rest => if p x then f x :: rest else x :: updateFirst p f rest

/-- `DatabaseService.toggleUserNotifications` (the source takes only the
`chatId` and flips the stored flag): returns the updated document and
the new database. -/
def toggleUserNotifications (users : List User) (chatId : ℤ) : Option User × List User :=
  match users.find? (fun u => u.chatId = chatId) with
  | none => (none, users)
  | some u =>
    let newStatus := !u.notificationsEnabled
    (some { u with notificationsEnabled := newStatus },
     updateFirst (fun v => v.chatId = chatId)
       (fun v => { v with notificationsEnabled := newStatus }) users)

/-- An outbound destination: the broadcast channel id (a string) or a
subscriber `chatId` (a number). -/
inductive Recipient where
  | channel (id : String)
  | chat (id : ℤ)
deriving DecidableEq, Repr

/-- The settled outcome of the underlying `bot.sendMessage` call;
`fail code` carries `error.response?.body?.error_code`. -/
inductive SendOutcome where
  | ok
  | fail (errorCode : Option ℕ)
deriving DecidableEq, Repr

/-- `TelegramService.sendMessage`: one underlying send attempt (the
returned count), every failure swallowed.  On a 403 error with a numeric
`chatId` the subscriber's notifications are toggled; every other failure
only logs.  The function always returns (no error propagates). -/
def sendMessage (users : List User) (recipient : Recipient) (outcome : SendOutcome) :
    List User × ℕ :=
  match outcome with
  | SendOutcome.ok => (users, 1)
  | SendOutcome.fail code =>
    if code = some 403 then
      match recipient with
      | Recipient.chat id => ((toggleUserNotifications users id).2, 1)
      | Recipient.channel _ => (users, 1)
    else (users, 1)

/-- Bytewise-lexicographic string order: the document store's `$lt`/`$gte`
comparison on the (ASCII) ISO-8601 time strings. -/
def charsLt : List Char → List Char → Bool
  | [], [] => false
  | [], _ :: _ => true
  | _ :: _, [] => false
  | a :: as, b :: bs =>
    if a.toNat < b.toNat then true
    else if b.toNat < a.toNat then false
    else charsLt as bs

/-- `s` strictly before `t` in the store's string order. -/
def isoLt (s t : String) : Bool := charsLt s.data t.data

/-- `s` at or after `t` (`$gte`). -/
def isoGe (s t : String) : Bool := !(isoLt s t)

/-- `DatabaseService.deleteOldLiquidations`: delete every document with
`time < olderThan` (ISO strings), returning the remaining collection and
the deleted count. -/
def deleteOldLiquidations (events : List LiquidationData) (olderThan : String) :
    List LiquidationData × ℕ :=
  (events.filter (fun e => !(isoLt e.time olderThan)),
   (events.filter (fun e => isoLt e.time olderThan)).length)

/-- `ReportingService.cleanupOldData`: the daily job deletes liquidations
older than `now − 48 h` (hour arithmetic on a UTC clock). -/
def cleanupOldData (now : ℕ) (events : List LiquidationData) : List LiquidationData × ℕ :=
  deleteOldLiquidations events (toISOString (now - 48 * 3600000))

/-- Per-symbol side totals (`LiquidationStats` in the source). -/
structure LiquidationStats where
  longs : ℚ
  shorts : ℚ
deriving DecidableEq, Repr

/-- The per-symbol body of `ReportingService.getStatsForPeriod`: sum the
long and short notionals of the events for `symbol` in the half-open ISO
window `[startISO, endISO)`. -/
def statsForSymbol (events : List LiquidationData) (symbol startISO endISO : String) :
    LiquidationStats :=
  let liqs := events.filter (fun e =>
    e.symbol = symbol && isoGe e.time startISO && isoLt e.time endISO)
  { longs := (liqs.map (fun e =>
      if e.side = Side.longLiquidation then e.price * e.quantity else 0)).sum
    shorts := (liqs.map (fun e =>
      if e.side = Side.longLiquidation then 0 else e.price * e.quantity)).sum }

/-- `ReportingService.getStatsForPeriod`: one entry per tracked symbol
with a nonzero side total, in tracked order. -/
def getStatsForPeriod (symbols : List String) (startISO endISO : String)
    (events : List LiquidationData) : List (String × LiquidationStats) :=
  match symbols with
  | [] => []
  | sym :: rest =>
    let st := statsForSymbol events sym startISO endISO
    let tail := getStatsForPeriod rest startISO endISO events
    if st.longs > 0 ∨ st.shorts > 0 then (sym, st) :: tail else tail

/-- Truncate a millisecond timestamp to the start of its UTC hour
(`setMinutes(0, 0, 0)` on a UTC clock). -/
def startOfHour (now : ℕ) : ℕ := now - now % 3600000

/-- The trend marker appended to a symbol line: `⬆️` on a strict
increase over the comparison value, `⬇️` on a strict decrease, nothing
when equal. -/
def trendOf (current comparison : ℚ) : String :=
  if current > comparison then " ⬆️" else if current < comparison then " ⬇️" else ""

/-- One rendered symbol line of a report section, before string
formatting: the symbol, its side total, and the trend marker. -/
structure ReportLine where
  symbol : String
  amount : ℚ
  trend : String
deriving DecidableEq, Repr

/-- Build the longs and shorts line lists from the current and previous
stats maps.  `scale` multiplies the prior totals in the live
(non-scheduled) case before the trend comparison. -/
def buildLines (isScheduled : Bool) (scale : ℚ)
    (previousStats : List (String × LiquidationStats)) :
    List (String × LiquidationStats) → List ReportLine × List ReportLine
  | [] => ([], [])
  | (sym, cur) :: rest =>
    let (restLongs, restShorts) := buildLines isScheduled scale previousStats rest
    let prev := (previousStats.lookup sym).getD { longs := 0, shorts := 0 }
    let comparisonLongs := if isScheduled then prev.longs else prev.longs * scale
    let comparisonShorts := if isScheduled then prev.shorts else prev.shorts * scale
    ((if cur.longs > 0 then
        { symbol := sym, amount := cur.longs, trend := trendOf cur.longs comparisonLongs }
          :: restLongs
      else restLongs),
     (if cur.shorts > 0 then
        { symbol := sym, amount := cur.shorts, trend := trendOf cur.shorts comparisonShorts }
          :: restShorts
      else restShorts))

/-- Outcome of `generateReportForUser`: the no-current-data sentinel
string, `null` (both sections empty), or the two line lists. -/
inductive ReportResult where
  | sentinel
  | empty
  | lines (longLines shortLines : List ReportLine)
deriving DecidableEq, Repr

/-- `ReportingService.generateReportForUser` up to string assembly.
Scheduled reports compare `[now − H, now)` with `[now − 2H, now − H)`;
live reports compare `[startOfHour now, now)` with the previous `H`
full hours, scaling the prior totals by the elapsed fraction. -/
def generateReportForUser (trackedSymbols : List String) (events : List LiquidationData)
    (now : ℕ) (intervalHours : ℕ) (isScheduled : Bool) : ReportResult :=
  let reportPeriodEnd := now
  let reportPeriodStart :=
    if isScheduled then now - intervalHours * 3600000 else startOfHour now
  let previousPeriodEnd := reportPeriodStart
  let previousPeriodStart := reportPeriodStart - intervalHours * 3600000
  let currentStats := getStatsForPeriod trackedSymbols
    (toISOString reportPeriodStart) (toISOString reportPeriodEnd) events
  let previousStats := getStatsForPeriod trackedSymbols
    (toISOString previousPeriodStart) (toISOString previousPeriodEnd) events
  if currentStats.isEmpty then ReportResult.sentinel
  else
    let minutesPassed : ℚ := ((reportPeriodEnd - reportPeriodStart : ℕ) : ℚ) / (1000 * 60)
    let scaleFactor : ℚ := minutesPassed / ((intervalHours : ℚ) * 60)
    let ls := buildLines isScheduled scaleFactor previousStats currentStats
    if ls.1.isEmpty ∧ ls.2.isEmpty then ReportResult.empty
    else ReportResult.lines ls.1 ls.2

def userA : User :=
  { chatId := 1, firstName := none, username := none, trackedSymbols := ["BTCUSDT"],
    notificationsEnabled := true, reportIntervalHours := 4, minLiquidationAlert := 50000,
    createdAt := 0 }

/-- Witness for C5 with a concrete subscriber, a 100 k liquidation, and
a raise of the threshold from 50 k to 200 k. -/
def eX1 : LiquidationData :=
  { symbol := "X", side := Side.longLiquidation, price := 2, quantity := 1,
    time := "2023-11-14T23:10:00.000Z" }

/-- Concrete prior-window event used by the C9 witness (long, notional
8, at 22:30 UTC). -/
def eX2 : LiquidationData :=
  { symbol := "X", side := Side.longLiquidation, price := 8, quantity := 1,
    time := "2023-11-14T22:30:00.000Z" }

/-- Witness for C9: a live report at 23:30 (30 minutes into the hour,
`H = 1`) over a current long of 2 against a prior long of 8; the scaled
comparison is `8 × 1/2 = 4 > 2`, so the line carries `⬇️`. -/
def solStats : AggregatedStats :=
  { symbol := "SOL", totalOpenInterest := 103000000, avgPrice := 100,
    exchanges := [], timestamp := 0 }

/-- Concrete snapshot cache seeded with `oi_last:SOL = 100000000`. -/
def solCache : Cache ℚ := Cache.set Cache.empty "oi_last:SOL" 100000000 86400

/-- Witness for C3 at the spec's S3 scenario (prior OI 100 M, current
103 M). -/
def binanceS4 : ExchangeData :=
  { name := "Binance 🔶", price := 100, fundingRate := 0, nextFundingTime := 0,
    openInterest := 1000, url := "b" }

/-- Concrete Bybit venue entry of the spec's scenario S4. -/
def bybitS4 : ExchangeData :=
  { name := "Bybit ⚫️", price := 100, fundingRate := 0, nextFundingTime := 0,
    openInterest := 500, url := "y" }

/-- Concrete MEXC venue entry of the spec's scenario S4. -/
def mexcS4 : ExchangeData :=
  { name := "MEXC 🔵", price := 100, fundingRate := 0, nextFundingTime := 0,
    openInterest := 200, url := "m" }

/-- Witness for C2 at the spec's normalisation scenario S4 (Binance USD
OI 1000, Bybit 500, MEXC 200, all at price 100). -/
theorem mem_sendRealtimeRecipients_iff (users : List User) (liq : LiquidationData)
    (u : User) :
    u ∈ sendRealtimeRecipients users liq ↔
      u ∈ users ∧ liq.symbol ∈ u.trackedSymbols ∧ u.notificationsEnabled = true ∧
        liq.price * liq.quantity ≥ u.minLiquidationAlert := by
  simp only [sendRealtimeRecipients, findUsersTrackingSymbol, List.mem_filter,
    Bool.and_eq_true, decide_eq_true_eq]
  tauto

theorem mem_sendCascadeRecipients_iff (users : List User) (symbol : String)
    (buffer : CascadeBuffer) (u : User) :
    u ∈ sendCascadeRecipients users symbol buffer ↔
      u ∈ users ∧ symbol ∈ u.trackedSymbols ∧ u.notificationsEnabled = true ∧
        buffer.totalVolume ≥ u.minLiquidationAlert := by
  simp only [sendCascadeRecipients, findUsersTrackingSymbol, List.mem_filter,
    Bool.and_eq_true, decide_eq_true_eq]
  tauto

/-- C5: a subscriber tracking a symbol is sent a real-time (respectively
cascade) alert on it exactly when their notifications are enabled and
the alert's notional — `price × quantity` for a single event,
`totalVolume` for a cascade — is at least their threshold; hence, for a
fixed alert stream, raising the threshold never adds received alerts. -/
theorem c5_fanout_threshold_filter_monotone :
    (∀ (users : List User) (liq : LiquidationData) (u : User), u ∈ users →
      (u ∈ sendRealtimeRecipients users liq ↔
        liq.symbol ∈ u.trackedSymbols ∧ u.notificationsEnabled = true ∧
          liq.price * liq.quantity ≥ u.minLiquidationAlert)) ∧
    (∀ (users : List User) (symbol : String) (buffer : CascadeBuffer) (u : User), u ∈ users →
      (u ∈ sendCascadeRecipients users symbol buffer ↔
        symbol ∈ u.trackedSymbols ∧ u.notificationsEnabled = true ∧
          buffer.totalVolume ≥ u.minLiquidationAlert)) ∧
    (∀ (u : User) (m : ℚ) (stream : List Alert), u.minLiquidationAlert ≤ m →
      ∀ a ∈ receivedAlerts { u with minLiquidationAlert := m } stream,
        a ∈ receivedAlerts u stream) := by
  refine ⟨?_, ?_, ?_⟩
  · intro users liq u hu
    rw [mem_sendRealtimeRecipients_iff]
    tauto
  · intro users symbol buffer u hu
    rw [mem_sendCascadeRecipients_iff]
    tauto
  · intro u m stream hm a ha
    simp only [receivedAlerts, List.mem_filter, decide_eq_true_eq] at ha ⊢
    refine ⟨ha.1, ?_⟩
    have hrec := ha.2
    rcases a with liq | ⟨symbol, buffer⟩
    · simp only [alertRecipients] at hrec ⊢
      rw [mem_sendRealtimeRecipients_iff] at hrec
      rw [mem_sendRealtimeRecipients_iff]
      exact ⟨List.mem_singleton_self u, hrec.2.1, hrec.2.2.1,
        le_trans hm hrec.2.2.2⟩
    · simp only [alertRecipients] at hrec ⊢
      rw [mem_sendCascadeRecipients_iff] at hrec
      rw [mem_sendCascadeRecipients_iff]
      exact ⟨List.mem_singleton_self u, hrec.2.1, hrec.2.2.1,
        le_trans hm hrec.2.2.2⟩

/-- Concrete subscriber used by the C5 witness: tracks `BTCUSDT`,
enabled, threshold 50 000. -/
theorem c5_fanout_threshold_filter_monotone_witness :
    userA ∈ [userA] ∧
    (userA ∈ sendRealtimeRecipients [userA]
        { symbol := "BTCUSDT", side := Side.longLiquidation, price := 100000, quantity := 1,
          time := "2023-11-14T22:13:20.000Z" } ↔
      ("BTCUSDT" : String) ∈ userA.trackedSymbols ∧ userA.notificationsEnabled = true ∧
        (100000 : ℚ) * 1 ≥ userA.minLiquidationAlert) ∧
    userA.minLiquidationAlert ≤ (200000 : ℚ) ∧
    (∀ a ∈ receivedAlerts { userA with minLiquidationAlert := (200000 : ℚ) }
        [Alert.realtime { symbol := "BTCUSDT", side := Side.longLiquidation, price := 100000,
                          quantity := 1, time := "2023-11-14T22:13:20.000Z" }],
      a ∈ receivedAlerts userA
        [Alert.realtime { symbol := "BTCUSDT", side := Side.longLiquidation, price := 100000,
                          quantity := 1, time := "2023-11-14T22:13:20.000Z" }]) :=
  ⟨List.mem_singleton_self userA,
   c5_fanout_threshold_filter_monotone.1 [userA] _ userA (List.mem_singleton_self userA),
   by decide,
   c5_fanout_threshold_filter_monotone.2.2 userA 200000 _ (by decide)⟩

/-- Replace the first list element satisfying the predicate
(`updateOne` semantics of the document store). -/
theorem mem_buildLines_long (scale : ℚ) (prevStats : List (String × LiquidationStats)) :
    ∀ (curStats : List (String × LiquidationStats)) (sym : String) (cur : LiquidationStats),
      (sym, cur) ∈ curStats → cur.longs > 0 →
      ({ symbol := sym, amount := cur.longs,
         trend := trendOf cur.longs (((prevStats.lookup sym).getD ⟨0, 0⟩).longs * scale) }
        : ReportLine) ∈ (buildLines false scale prevStats curStats).1 := by
  intro curStats
  induction curStats with
  | nil => intro sym cur h _; simp at h
  | cons p rest ih =>
    rcases p with ⟨s, c0⟩
    intro sym cur h hpos
    rcases List.mem_cons.1 h with heq | hmem
    · have hs : s = sym := (Prod.mk.injEq _ _ _ _ ▸ heq.symm).1
      have hc : c0 = cur := (Prod.mk.injEq _ _ _ _ ▸ heq.symm).2
      subst hs; subst hc
      simp only [buildLines, if_pos hpos, Bool.false_eq_true, if_false]
      exact List.mem_cons_self _ _
    · have hrec := ih sym cur hmem hpos
      simp only [buildLines, Bool.false_eq_true, if_false]
      by_cases hc : c0.longs > 0
      · rw [if_pos hc]
        exact List.mem_cons_of_mem _ hrec
      · rw [if_neg hc]
        exact hrec

theorem mem_buildLines_short (scale : ℚ) (prevStats : List (String × LiquidationStats)) :
    ∀ (curStats : List (String × LiquidationStats)) (sym : String) (cur : LiquidationStats),
      (sym, cur) ∈ curStats → cur.shorts > 0 →
      ({ symbol := sym, amount := cur.shorts,
         trend := trendOf cur.shorts (((prevStats.lookup sym).getD ⟨0, 0⟩).shorts * scale) }
        : ReportLine) ∈ (buildLines false scale prevStats curStats).2 := by
  intro curStats
  induction curStats with
  | nil => intro sym cur h _; simp at h
  | cons p rest ih =>
    rcases p with ⟨s, c0⟩
    intro sym cur h hpos
    rcases List.mem_cons.1 h with heq | hmem
    · have hs : s = sym := (Prod.mk.injEq _ _ _ _ ▸ heq.symm).1
      have hc : c0 = cur := (Prod.mk.injEq _ _ _ _ ▸ heq.symm).2
      subst hs; subst hc
      simp only [buildLines, if_pos hpos, Bool.false_eq_true, if_false]
      exact List.mem_cons_self _ _
    · have hrec := ih sym cur hmem hpos
      simp only [buildLines, Bool.false_eq_true, if_false]
      by_cases hc : c0.shorts > 0
      · rw [if_pos hc]
        exact List.mem_cons_of_mem _ hrec
      · rw [if_neg hc]
        exact hrec

/-- C9: a live (non-scheduled) report takes the current window
`[start of the current hour, now)`, compares it against the previous `H`
full hours with the prior side totals multiplied by
`minutesElapsedInCurrentHour / (H × 60)`, and each rendered symbol line
carries `⬆️` exactly when the current side total strictly exceeds the
scaled prior, `⬇️` exactly when it is strictly below, and no arrow
exactly when they are equal. -/
theorem c9_live_report_window_scaling_trends (tracked : List String)
    (events : List LiquidationData) (now H : ℕ) :
    (∀ L S, generateReportForUser tracked events now H false = ReportResult.lines L S →
      (L, S) = buildLines false
        ((((now - startOfHour now : ℕ) : ℚ) / 60000) / ((H : ℚ) * 60))
        (getStatsForPeriod tracked (toISOString (startOfHour now - H * 3600000))
          (toISOString (startOfHour now)) events)
        (getStatsForPeriod tracked (toISOString (startOfHour now)) (toISOString now) events)) ∧
    (∀ (scale : ℚ) (prevStats curStats : List (String × LiquidationStats))
        (sym : String) (cur : LiquidationStats),
      (sym, cur) ∈ curStats → cur.longs > 0 →
      ({ symbol := sym, amount := cur.longs,
         trend := trendOf cur.longs (((prevStats.lookup sym).getD ⟨0, 0⟩).longs * scale) }
        : ReportLine) ∈ (buildLines false scale prevStats curStats).1) ∧
    (∀ (scale : ℚ) (prevStats curStats : List (String × LiquidationStats))
        (sym : String) (cur : LiquidationStats),
      (sym, cur) ∈ curStats → cur.shorts > 0 →
      ({ symbol := sym, amount := cur.shorts,
         trend := trendOf cur.shorts (((prevStats.lookup sym).getD ⟨0, 0⟩).shorts * scale) }
        : ReportLine) ∈ (buildLines false scale prevStats curStats).2) ∧
    (∀ current comparison : ℚ,
      (trendOf current comparison = " ⬆️" ↔ current > comparison) ∧
      (trendOf current comparison = " ⬇️" ↔ current < comparison) ∧
      (trendOf current comparison = "" ↔ current = comparison)) := by
  refine ⟨?_, mem_buildLines_long, mem_buildLines_short, ?_⟩
  · intro L S h
    simp only [generateReportForUser, Bool.false_eq_true, if_false] at h
    split at h
    · exact absurd h (by simp)
    · split at h
      · exact absurd h (by simp)
      · have hLS := ReportResult.lines.inj h
        rw [← hLS.1, ← hLS.2]
        norm_num
  · intro current comparison
    rcases lt_trichotomy current comparison with hlt | heq | hgt
    · have h1 : trendOf current comparison = " ⬇️" := by
        simp [trendOf, hlt, not_lt_of_gt hlt, lt_asymm hlt]
      rw [h1]
      refine ⟨⟨fun hx => absurd hx (by decide), fun hx => absurd hx (lt_asymm hlt)⟩,
        ⟨fun _ => hlt, fun _ => rfl⟩, ⟨fun hx => absurd hx (by decide),
        fun hx => absurd hx (ne_of_lt hlt)⟩⟩
    · subst heq
      have h1 : trendOf current current = "" := by
        simp [trendOf]
      rw [h1]
      refine ⟨⟨fun hx => absurd hx (by decide), fun hx => absurd hx (lt_irrefl _)⟩,
        ⟨fun hx => absurd hx (by decide), fun hx => absurd hx (lt_irrefl _)⟩,
        ⟨fun _ => rfl, fun _ => rfl⟩⟩
    · have h1 : trendOf current comparison = " ⬆️" := by
        simp [trendOf, hgt]
      rw [h1]
      refine ⟨⟨fun _ => hgt, fun _ => rfl⟩,
        ⟨fun hx => absurd hx (by decide), fun hx => absurd hx (lt_asymm hgt)⟩,
        ⟨fun hx => absurd hx (by decide), fun hx => absurd hx (ne_of_gt hgt)⟩⟩

/-- Concrete current-window event used by the C9 witness (long, notional
2, at 23:10 UTC). -/
theorem c9_live_report_window_scaling_trends_witness :
    generateReportForUser ["X"] [eX1, eX2] 1700004600000 1 false =
      ReportResult.lines [{ symbol := "X", amount := 2, trend := " ⬇️" }] [] ∧
    ([({ symbol := "X", amount := 2, trend := " ⬇️" } : ReportLine)], ([] : List ReportLine)) =
      buildLines false
        ((((1700004600000 - startOfHour 1700004600000 : ℕ) : ℚ) / 60000) / ((1 : ℚ) * 60))
        (getStatsForPeriod ["X"] (toISOString (startOfHour 1700004600000 - 1 * 3600000))
          (toISOString (startOfHour 1700004600000)) [eX1, eX2])
        (getStatsForPeriod ["X"] (toISOString (startOfHour 1700004600000))
          (toISOString 1700004600000) [eX1, eX2]) ∧
    (("X", ({ longs := 2, shorts := 0 } : LiquidationStats)) ∈
        [("X", ({ longs := 2, shorts := 0 } : LiquidationStats))] ∧
      ({ longs := 2, shorts := 0 } : LiquidationStats).longs > 0 ∧
      ({ symbol := "X", amount := ({ longs := 2, shorts := 0 } : LiquidationStats).longs,
         trend := trendOf ({ longs := 2, shorts := 0 } : LiquidationStats).longs
           (((([("X", ({ longs := 8, shorts := 0 } : LiquidationStats))].lookup "X").getD
             ⟨0, 0⟩).longs) * (1 / 2)) } : ReportLine) ∈
        (buildLines false (1 / 2) [("X", { longs := 8, shorts := 0 })]
          [("X", { longs := 2, shorts := 0 })]).1) ∧
    ((trendOf 3 2 = " ⬆️" ↔ (3 : ℚ) > 2) ∧ (trendOf 3 2 = " ⬇️" ↔ (3 : ℚ) < 2) ∧
      (trendOf 3 2 = "" ↔ (3 : ℚ) = 2)) := by
  have hconc : generateReportForUser ["X"] [eX1, eX2] 1700004600000 1 false =
      ReportResult.lines [{ symbol := "X", amount := 2, trend := " ⬇️" }] [] := by
    have hnow : toISOString 1700004600000 = "2023-11-14T23:30:00.000Z" := by decide
    have hstart : startOfHour 1700004600000 = 1700002800000 := by decide
    have hs : toISOString 1700002800000 = "2023-11-14T23:00:00.000Z" := by decide
    have hp : toISOString (1700002800000 - 1 * 3600000) = "2023-11-14T22:00:00.000Z" := by
      decide
    have hf1 : List.filter (fun e =>
        e.symbol = "X" && isoGe e.time "2023-11-14T23:00:00.000Z" &&
          isoLt e.time "2023-11-14T23:30:00.000Z") [eX1, eX2] = [eX1] := by decide
    have hf2 : List.filter (fun e =>
        e.symbol = "X" && isoGe e.time "2023-11-14T22:00:00.000Z" &&
          isoLt e.time "2023-11-14T23:00:00.000Z") [eX1, eX2] = [eX2] := by decide
    simp only [generateReportForUser, Bool.false_eq_true, if_false, hstart, hnow, hs, hp,
      getStatsForPeriod, statsForSymbol, hf1, hf2]
    norm_num [eX1, eX2, buildLines, trendOf]
  refine ⟨hconc,
    (c9_live_report_window_scaling_trends ["X"] [eX1, eX2] 1700004600000 1).1 _ _ hconc,
    ⟨by decide, by decide,
     (c9_live_report_window_scaling_trends ["X"] [eX1, eX2] 1700004600000 1).2.1
       (1 / 2) [("X", { longs := 8, shorts := 0 })] [("X", { longs := 2, shorts := 0 })]
       "X" { longs := 2, shorts := 0 } (by decide) (by decide)⟩,
    (c9_live_report_window_scaling_trends ["X"] [eX1, eX2] 1700004600000 1).2.2.2 3 2⟩

theorem parseDecimal_concrete_50000 : parseDecimal "50000" = 50000 := by
  have h : parseParts "50000" =
      { neg := false, intNat := 50000, fracNat := 0, fracLen := 0, hasDigits := true,
        expNeg := false, expNat := 0 } := by decide
  rw [parseDecimal, h]
  norm_num [partsToRat]

theorem parseDecimal_concrete_2 : parseDecimal "2" = 2 := by
  have h : parseParts "2" =
      { neg := false, intNat := 2, fracNat := 0, fracLen := 0, hasDigits := true,
        expNeg := false, expNat := 0 } := by decide
  rw [parseDecimal, h]
  norm_num [partsToRat]

/-- C1: every decoded `forceOrder` payload is turned into a liquidation
event whose side is `short liquidation` exactly when the upstream `S`
field is `"BUY"` (any other value gives `long liquidation`), whose price
and quantity are the parsed decimal values of `p` and `q`, and whose
time is the UTC ISO-8601 rendering of the millisecond timestamp `T`;
instantiated on the spec's scenario frame. -/
theorem c1_stream_ingest_event_construction :
    (∀ o : ForceOrderPayload,
      ((processLiquidation o).side = Side.shortLiquidation ↔ o.S = "BUY") ∧
      (o.S ≠ "BUY" → (processLiquidation o).side = Side.longLiquidation) ∧
      (processLiquidation o).symbol = o.s ∧
      (processLiquidation o).price = parseDecimal o.p ∧
      (processLiquidation o).quantity = parseDecimal o.q ∧
      (processLiquidation o).time = toISOString o.T) ∧
    handleStreamMessage ⟨some ("forceOrder", ⟨"BTCUSDT", "BUY", "50000", "2", 1700000000000⟩)⟩ =
      some { symbol := "BTCUSDT", side := Side.shortLiquidation, price := 50000, quantity := 2,
             time := "2023-11-14T22:13:20.000Z" } := by
  constructor
  · intro o
    refine ⟨?_, ?_, rfl, rfl, rfl, rfl⟩
    · by_cases h : o.S = "BUY" <;> simp [processLiquidation, h]
    · intro h
      simp [processLiquidation, h]
  · have ht : toISOString 1700000000000 = "2023-11-14T22:13:20.000Z" := by decide
    simp [handleStreamMessage, processLiquidation, parseDecimal_concrete_50000,
      parseDecimal_concrete_2, ht]

/-- Witness for C1 at a non-`BUY` payload. -/
theorem c1_stream_ingest_event_construction_witness :
    ("SELL" : String) ≠ "BUY" ∧
    (processLiquidation ⟨"ETHUSDT", "SELL", "2000", "1", 1700000000000⟩).side =
      Side.longLiquidation :=
  ⟨by decide,
   (c1_stream_ingest_event_construction.1 ⟨"ETHUSDT", "SELL", "2000", "1", 1700000000000⟩).2.1
     (by decide)⟩

/-- Counterexample to C4 as stated: a successful contract-detail
response whose `contractSize` field is missing parses to `0`, and the
read-through helper does not cache a falsy value, so the fetched
contract size is not always cached for 24 hours. -/
theorem c4_counterexample_zero_size_not_cached :
    (getMexcContractSize Cache.empty "BTC_USDT"
      (some { success := true, hasData := true, contractSize := none })).1 = 0 ∧
    (getMexcContractSize Cache.empty "BTC_USDT"
      (some { success := true, hasData := true, contractSize := none })).2.find
        "mexc_size:BTC_USDT" = none := by
  constructor <;> rfl

/-- C4 (amended): a thrown contract-detail request defaults the contract
size to `1`; an unsuccessful or data-less response defaults it to
`0.0001`; on a cache miss the fetched size is cached for 24 hours
whenever it is nonzero, and a zero size is returned uncached. -/
theorem c4_contract_size_default_and_caching (c : Cache ℚ) (symbol : String)
    (resp : Option MexcDetail) (hmiss : c.get ("mexc_size:" ++ symbol) = none) :
    (resp = none → (getMexcContractSize c symbol resp).1 = 1) ∧
    (∀ r, resp = some r → ¬(r.success = true ∧ r.hasData = true) →
      (getMexcContractSize c symbol resp).1 = 1 / 10000) ∧
    ((getMexcContractSize c symbol resp).1 ≠ 0 →
      (getMexcContractSize c symbol resp).2.find ("mexc_size:" ++ symbol) =
        some ((getMexcContractSize c symbol resp).1, 86400)) ∧
    ((getMexcContractSize c symbol resp).1 = 0 →
      (getMexcContractSize c symbol resp).2 = c) := by
  have hfind : (getMexcContractSize c symbol resp).1 =
      match resp with
      | none => 1
      | some r => if r.success && r.hasData then safeFloat r.contractSize else 1 / 10000 := by
    simp [getMexcContractSize, Cache.getOrFetchQ, hmiss]
  refine ⟨?_, ?_, ?_, ?_⟩
  · intro h
    subst h
    simp at hfind
    exact hfind
  · intro r h hne
    subst h
    have : (r.success && r.hasData) = false := by
      rcases Bool.eq_false_or_eq_true r.success with hs | hs <;>
        rcases Bool.eq_false_or_eq_true r.hasData with hd | hd <;>
          simp [hs, hd] at hne ⊢
    rw [hfind]
    simp [this]
  · intro hne
    simp only [getMexcContractSize, Cache.getOrFetchQ, hmiss] at hne ⊢
    rw [if_pos hne]
    simp [Cache.find, Cache.set]
  · intro hz
    simp only [getMexcContractSize, Cache.getOrFetchQ, hmiss] at hz ⊢
    rw [if_neg (by simpa using hz)]

/-- Witness for C4 (amended) at an empty cache and a thrown request. -/
theorem c4_contract_size_default_and_caching_witness :
    Cache.get (Cache.empty : Cache ℚ) ("mexc_size:" ++ "BTC_USDT") = none ∧
    (((none : Option MexcDetail) = none →
        (getMexcContractSize Cache.empty "BTC_USDT" none).1 = 1) ∧
     (∀ r, (none : Option MexcDetail) = some r → ¬(r.success = true ∧ r.hasData = true) →
        (getMexcContractSize Cache.empty "BTC_USDT" none).1 = 1 / 10000) ∧
     ((getMexcContractSize Cache.empty "BTC_USDT" none).1 ≠ 0 →
        (getMexcContractSize Cache.empty "BTC_USDT" none).2.find ("mexc_size:" ++ "BTC_USDT") =
          some ((getMexcContractSize Cache.empty "BTC_USDT" none).1, 86400)) ∧
     ((getMexcContractSize Cache.empty "BTC_USDT" none).1 = 0 →
        (getMexcContractSize Cache.empty "BTC_USDT" none).2 = Cache.empty)) :=
  ⟨rfl, c4_contract_size_default_and_caching Cache.empty "BTC_USDT" none rfl⟩

/-- C6 at the failing input: a subscriber who already has notifications
disabled (for example, muted) and who blocks the bot is sent a message
from a non-filtered path; the 403 handler calls the toggle with `false`,
but the stored procedure ignores the argument and flips the flag, so the
subscriber's notifications come back on instead of being set to false.
The send is still attempted exactly once. -/
theorem c6_blocked_muted_subscriber_reenabled :
    (sendMessage
        [{ chatId := 7, firstName := none, username := none, trackedSymbols := ["BTCUSDT"],
           notificationsEnabled := false, reportIntervalHours := 4, minLiquidationAlert := 10000,
           createdAt := 0 }]
        (Recipient.chat 7) (SendOutcome.fail (some 403))).1 =
      [{ chatId := 7, firstName := none, username := none, trackedSymbols := ["BTCUSDT"],
         notificationsEnabled := true, reportIntervalHours := 4, minLiquidationAlert := 10000,
         createdAt := 0 }] ∧
    (sendMessage
        [{ chatId := 7, firstName := none, username := none, trackedSymbols := ["BTCUSDT"],
           notificationsEnabled := false, reportIntervalHours := 4, minLiquidationAlert := 10000,
           createdAt := 0 }]
        (Recipient.chat 7) (SendOutcome.fail (some 403))).2 = 1 := by
  constructor <;> rfl

theorem checkOI_single (stats : String → Option AggregatedStats) (sym : String)
    (c : Cache ℚ) :
    checkOIFluctuations [sym] stats c =
      ((processOISymbol (stats sym) c).1, (processOISymbol (stats sym) c).2) := by
  simp [checkOIFluctuations]

/-- C3: on a scan pass over a symbol with available aggregated stats,
the snapshot at `oi_last:<symbol>` is always rewritten with a 24 h TTL;
a surge record `{symbol, previousOI, currentOI, percentChange,
price = avgPrice}` is emitted exactly when a (nonzero) prior snapshot
exists and the absolute percent change reaches 2.5 (with the rational
convention `x / 0 = 0`, a zero prior never reaches the threshold, which
matches the code's truthiness guard); a symbol without a prior snapshot
emits nothing, and a second pass over identical data emits nothing. -/
theorem c3_oi_surge_scan (stats : String → Option AggregatedStats) (sym : String)
    (st : AggregatedStats) (c : Cache ℚ) (hst : stats sym = some st) :
    (checkOIFluctuations [sym] stats c).1.find ("oi_last:" ++ st.symbol) =
      some (st.totalOpenInterest, 86400) ∧
    (∀ v, c.get ("oi_last:" ++ st.symbol) = some v →
      (((checkOIFluctuations [sym] stats c).2 =
          [{ symbol := st.symbol, previousOI := v, currentOI := st.totalOpenInterest,
             percentChange := (st.totalOpenInterest - v) / v * 100, price := st.avgPrice }]) ↔
        |(st.totalOpenInterest - v) / v * 100| ≥ 5 / 2) ∧
      (¬(|(st.totalOpenInterest - v) / v * 100| ≥ 5 / 2) →
        (checkOIFluctuations [sym] stats c).2 = [])) ∧
    (c.get ("oi_last:" ++ st.symbol) = none → (checkOIFluctuations [sym] stats c).2 = []) ∧
    (checkOIFluctuations [sym] stats ((checkOIFluctuations [sym] stats c).1)).2 = [] := by
  rw [checkOI_single, checkOI_single]
  refine ⟨?_, ?_, ?_, ?_⟩
  · rcases hv : c.get ("oi_last:" ++ st.symbol) with _ | v <;>
      simp only [processOISymbol, hst, hv] <;>
      [skip; split_ifs] <;> simp [Cache.set, Cache.find]
  · intro v hv
    by_cases hz : v = 0
    · subst hz
      have hdz : (st.totalOpenInterest - 0) / 0 * 100 = 0 := by
        simp
      constructor
      · rw [hdz]
        simp only [processOISymbol, hst, hv]
        norm_num
      · intro hn
        simp only [processOISymbol, hst, hv]
        norm_num
    · simp only [processOISymbol, hst, hv, if_pos hz]
      constructor
      · by_cases hth : |(st.totalOpenInterest - v) / v * 100| ≥ 5 / 2
        · simp [hth]
        · simp [hth]
      · intro hn
        simp [hn]
  · intro hv
    simp [processOISymbol, hst, hv]
  · have hget : ((processOISymbol (stats sym) c).1).get ("oi_last:" ++ st.symbol) =
        some st.totalOpenInterest := by
      rcases hv : c.get ("oi_last:" ++ st.symbol) with _ | v <;>
        simp only [processOISymbol, hst, hv] <;>
        [skip; split_ifs] <;> simp [Cache.set, Cache.get, Cache.find]
    generalize hgen : (processOISymbol (stats sym) c).1 = c1 at hget
    by_cases hz : st.totalOpenInterest = 0
    · simp [processOISymbol, hst, hget, hz]
    · have hdz : (st.totalOpenInterest - st.totalOpenInterest) / st.totalOpenInterest * 100 = 0 := by
        simp
      simp only [processOISymbol, hst, hget, if_pos hz, hdz]
      norm_num

/-- Concrete aggregated stats used by the S3-scenario witnesses. -/
theorem c3_oi_surge_scan_witness :
    (fun (_ : String) => some solStats) "SOL" = some solStats ∧
    ((checkOIFluctuations ["SOL"] (fun _ => some solStats) solCache).1.find
        ("oi_last:" ++ solStats.symbol) = some (solStats.totalOpenInterest, 86400) ∧
      (∀ v, solCache.get ("oi_last:" ++ solStats.symbol) = some v →
        (((checkOIFluctuations ["SOL"] (fun _ => some solStats) solCache).2 =
            [{ symbol := solStats.symbol, previousOI := v,
               currentOI := solStats.totalOpenInterest,
               percentChange := (solStats.totalOpenInterest - v) / v * 100,
               price := solStats.avgPrice }]) ↔
          |(solStats.totalOpenInterest - v) / v * 100| ≥ 5 / 2) ∧
        (¬(|(solStats.totalOpenInterest - v) / v * 100| ≥ 5 / 2) →
          (checkOIFluctuations ["SOL"] (fun _ => some solStats) solCache).2 = [])) ∧
      (solCache.get ("oi_last:" ++ solStats.symbol) = none →
        (checkOIFluctuations ["SOL"] (fun _ => some solStats) solCache).2 = []) ∧
      (checkOIFluctuations ["SOL"] (fun _ => some solStats)
        ((checkOIFluctuations ["SOL"] (fun _ => some solStats) solCache).1)).2 = []) :=
  ⟨rfl, c3_oi_surge_scan (fun _ => some solStats) "SOL" solStats solCache rfl⟩

/-- C10: a stored OI snapshot that deserialises to `0` is treated as
absent by the surge scan: no surge is emitted for the symbol whatever
the current open interest, and the snapshot is simply overwritten with
the current value and a 24 h TTL, so the percent-change division is
never taken with a zero prior. -/
theorem c10_zero_snapshot_is_baseline (stats : String → Option AggregatedStats) (sym : String)
    (st : AggregatedStats) (c : Cache ℚ) (hst : stats sym = some st)
    (h0 : c.get ("oi_last:" ++ st.symbol) = some 0) :
    (checkOIFluctuations [sym] stats c).2 = [] ∧
    (checkOIFluctuations [sym] stats c).1.find ("oi_last:" ++ st.symbol) =
      some (st.totalOpenInterest, 86400) := by
  simp only [checkOIFluctuations, processOISymbol, hst, h0]
  norm_num
  simp [Cache.find, Cache.set]

/-- Witness for C10 with a concrete zero snapshot. -/
theorem c10_zero_snapshot_is_baseline_witness :
    (fun (_ : String) =>
        some ({ symbol := "SOL", totalOpenInterest := 103000000, avgPrice := 100,
                exchanges := [], timestamp := 0 } : AggregatedStats)) "SOL" =
      some { symbol := "SOL", totalOpenInterest := 103000000, avgPrice := 100,
             exchanges := [], timestamp := 0 } ∧
    Cache.get (Cache.set Cache.empty "oi_last:SOL" 0 86400) ("oi_last:" ++ "SOL") = some 0 ∧
    (checkOIFluctuations ["SOL"]
        (fun _ =>
          some { symbol := "SOL", totalOpenInterest := 103000000, avgPrice := 100,
                 exchanges := [], timestamp := 0 })
        (Cache.set Cache.empty "oi_last:SOL" 0 86400)).2 = [] :=
  ⟨rfl, by decide,
   (c10_zero_snapshot_is_baseline _ "SOL" _ _ rfl (by decide)).1⟩

theorem deleteOldLiquidations_length (events : List LiquidationData) (cutoff : String) :
    (deleteOldLiquidations events cutoff).1.length + (deleteOldLiquidations events cutoff).2 =
      events.length := by
  simp only [deleteOldLiquidations]
  induction events with
  | nil => rfl
  | cons e rest ih =>
    by_cases h : isoLt e.time cutoff <;> simp [List.filter, h] <;> omega

/-- C8: after `deleteOldLiquidations` completes, no persisted event with
time earlier than the cutoff remains (and events at or after it all
remain), the returned value is the number of deleted documents, and the
daily cleanup job invokes the deletion with cutoff `now − 48 h`. -/
theorem c8_retention (events : List LiquidationData) (cutoff : String) (now : ℕ) :
    (∀ e ∈ (deleteOldLiquidations events cutoff).1, isoLt e.time cutoff = false) ∧
    (∀ e ∈ events, isoLt e.time cutoff = false → e ∈ (deleteOldLiquidations events cutoff).1) ∧
    (deleteOldLiquidations events cutoff).2 =
      events.length - (deleteOldLiquidations events cutoff).1.length ∧
    cleanupOldData now events = deleteOldLiquidations events (toISOString (now - 48 * 3600000)) := by
  refine ⟨?_, ?_, ?_, rfl⟩
  · intro e he
    simp only [deleteOldLiquidations, List.mem_filter] at he
    simpa using he.2
  · intro e he h
    simp only [deleteOldLiquidations, List.mem_filter]
    exact ⟨he, by simp [h]⟩
  · have := deleteOldLiquidations_length events cutoff
    omega

/-- C2: when at least one venue fetch succeeds, the aggregate's
`totalOpenInterest` is the sum of the successful venues' USD open
interest, `avgPrice` is the arithmetic mean of their prices, and the
`exchanges` array is a permutation of the successful venues sorted by
open interest descending; and the per-venue USD normalisation multiplies
Binance and Bybit coin open interest by the last price and MEXC
`holdVol` by the contract size and then the price. -/
theorem c2_aggregation_and_normalisation (symbolInput : String)
    (binance bybit mexc : Option ExchangeData) (c : Cache AggregatedStats) (now : ℕ)
    (h : ¬(binance = none ∧ bybit = none ∧ mexc = none)) :
    (∃ st : AggregatedStats,
      (getAggregatedStats symbolInput binance bybit mexc c now).1 = some st ∧
      st.totalOpenInterest =
        (([binance, bybit, mexc].filterMap id).map ExchangeData.openInterest).sum ∧
      st.avgPrice = (([binance, bybit, mexc].filterMap id).map ExchangeData.price).sum /
        (([binance, bybit, mexc].filterMap id).length : ℚ) ∧
      st.exchanges.Perm ([binance, bybit, mexc].filterMap id) ∧
      List.Sorted oiDesc st.exchanges) ∧
    (∀ (base : String) (r : BinanceRaw) (ex : ExchangeData),
      fetchBinance base (some r) = some ex →
      ex.price = safeFloat r.tickerPrice ∧
      ex.openInterest = safeFloat r.openInterest * safeFloat r.tickerPrice) ∧
    (∀ (base : String) (r : BybitRaw) (ex : ExchangeData),
      fetchBybit base (some r) = some ex →
      ∃ t, r.ticker = some t ∧ ex.price = safeFloat t.lastPrice ∧
        ex.openInterest = safeFloat t.openInterest * safeFloat t.lastPrice) ∧
    (∀ (base : String) (t : MexcTicker) (f : MexcFunding) (size : ℚ) (ex : ExchangeData),
      fetchMexc base (some t) (some f) size = some ex →
      ex.price = safeFloat t.lastPrice ∧
      ex.openInterest = safeFloat t.holdVol * size * safeFloat t.lastPrice) := by
  have hE : ([binance, bybit, mexc].filterMap id).isEmpty = false := by
    rcases binance <;> rcases bybit <;> rcases mexc <;> simp_all
  refine ⟨?_, ?_, ?_, ?_⟩
  · refine ⟨{ symbol := normalizeSymbol symbolInput,
              totalOpenInterest :=
                (([binance, bybit, mexc].filterMap id).map ExchangeData.openInterest).sum,
              avgPrice := (([binance, bybit, mexc].filterMap id).map ExchangeData.price).sum /
                (([binance, bybit, mexc].filterMap id).length : ℚ),
              exchanges := ([binance, bybit, mexc].filterMap id).insertionSort oiDesc,
              timestamp := now }, ?_, rfl, rfl,
            List.perm_insertionSort _ _, List.sorted_insertionSort _ _⟩
    simp [getAggregatedStats, hE]
  · intro base r ex hx
    rcases hps : r.premiumSymbol with _ | ps
    · simp [fetchBinance, hps] at hx
    · by_cases he : ps = ""
      · simp [fetchBinance, hps, he] at hx
      · simp only [fetchBinance, hps, he, if_false] at hx
        have hx' := Option.some.inj hx
        subst hx'
        exact ⟨rfl, rfl⟩
  · intro base r ex hx
    by_cases hrc : r.retCode ≠ 0
    · simp [fetchBybit, hrc] at hx
    · rcases ht : r.ticker with _ | t
      · simp [fetchBybit, hrc, ht] at hx
      · simp only [fetchBybit, hrc, ht, ite_false, if_neg] at hx
        have hx' := Option.some.inj hx
        subst hx'
        exact ⟨t, rfl, rfl, rfl⟩
  · intro base t f size ex hx
    by_cases hs : t.success
    · simp only [fetchMexc, hs, Bool.not_true, if_false] at hx
      have hx' := Option.some.inj hx
      subst hx'
      exact ⟨rfl, rfl⟩
    · simp [fetchMexc, Bool.not_eq_true', hs] at hx

/-- Concrete Binance venue entry of the spec's scenario S4. -/
theorem c2_aggregation_and_normalisation_witness :
    ¬(some binanceS4 = none ∧ some bybitS4 = none ∧ some mexcS4 = none) ∧
    (∃ st : AggregatedStats,
      (getAggregatedStats "BTC" (some binanceS4) (some bybitS4) (some mexcS4)
        Cache.empty 0).1 = some st ∧
      st.totalOpenInterest =
        (([some binanceS4, some bybitS4, some mexcS4].filterMap id).map
          ExchangeData.openInterest).sum ∧
      st.avgPrice =
        (([some binanceS4, some bybitS4, some mexcS4].filterMap id).map
          ExchangeData.price).sum /
        (([some binanceS4, some bybitS4, some mexcS4].filterMap id).length : ℚ) ∧
      st.exchanges.Perm ([some binanceS4, some bybitS4, some mexcS4].filterMap id) ∧
      List.Sorted oiDesc st.exchanges) :=
  ⟨by simp,
   (c2_aggregation_and_normalisation "BTC" _ _ _ Cache.empty 0 (by simp)).1⟩

/-- C7: the three venue fetches fail independently; a failed venue is
omitted while each successful venue still appears in the result, the
aggregate is absent exactly when all venues fail, and in that case
nothing is cached. -/
theorem c7_venue_failure_independence (symbolInput : String)
    (binance bybit mexc : Option ExchangeData) (c : Cache AggregatedStats) (now : ℕ) :
    ((getAggregatedStats symbolInput binance bybit mexc c now).1 = none ↔
      binance = none ∧ bybit = none ∧ mexc = none) ∧
    ((binance = none ∧ bybit = none ∧ mexc = none) →
      (getAggregatedStats symbolInput binance bybit mexc c now).2 = c) ∧
    (∀ st, (getAggregatedStats symbolInput binance bybit mexc c now).1 = some st →
      (∀ ex, binance = some ex → ex ∈ st.exchanges) ∧
      (∀ ex, bybit = some ex → ex ∈ st.exchanges) ∧
      (∀ ex, mexc = some ex → ex ∈ st.exchanges) ∧
      st.exchanges.length = ([binance, bybit, mexc].filterMap id).length) := by
  refine ⟨?_, ?_, ?_⟩
  · rcases binance <;> rcases bybit <;> rcases mexc <;>
      simp [getAggregatedStats]
  · rintro ⟨hb, hs, hm⟩
    subst hb; subst hs; subst hm
    simp [getAggregatedStats]
  · intro st hst
    have hE : ([binance, bybit, mexc].filterMap id).isEmpty = false := by
      rcases hc : ([binance, bybit, mexc].filterMap id).isEmpty
      · rfl
      · rw [List.isEmpty_iff] at hc
        have : binance = none ∧ bybit = none ∧ mexc = none := by
          rcases binance <;> rcases bybit <;> rcases mexc <;> simp_all
        rcases this with ⟨hb, hs, hm⟩
        subst hb; subst hs; subst hm
        simp [getAggregatedStats] at hst
    have hex : st.exchanges = ([binance, bybit, mexc].filterMap id).insertionSort oiDesc := by
      simp [getAggregatedStats, hE] at hst
      rw [← hst]
    refine ⟨?_, ?_, ?_, ?_⟩
    · intro ex hb
      rw [hex, List.mem_insertionSort]
      simp [hb]
    · intro ex hs
      rw [hex, List.mem_insertionSort]
      rcases binance <;> simp [hs]
    · intro ex hm
      rw [hex, List.mem_insertionSort]
      rcases binance <;> rcases bybit <;> simp [hm]
    · rw [hex]
      exact (List.perm_insertionSort _ _).length_eq

/-- Witness for C7's conditional parts: with only Bybit succeeding, the
result is present, contains the Bybit entry, and omits the others. -/
theorem c7_venue_failure_independence_witness :
    ((getAggregatedStats "BTC" none (some bybitS4) none Cache.empty 0).1 = none ↔
      (none : Option ExchangeData) = none ∧ some bybitS4 = none ∧
      (none : Option ExchangeData) = none) ∧
    (∀ st, (getAggregatedStats "BTC" none (some bybitS4) none Cache.empty 0).1 = some st →
      (∀ ex, (none : Option ExchangeData) = some ex → ex ∈ st.exchanges) ∧
      (∀ ex, some bybitS4 = some ex → ex ∈ st.exchanges) ∧
      (∀ ex, (none : Option ExchangeData) = some ex → ex ∈ st.exchanges) ∧
      st.exchanges.length = ([none, some bybitS4, none].filterMap id).length) :=
  ⟨(c7_venue_failure_independence "BTC" _ _ _ Cache.empty 0).1,
   (c7_venue_failure_independence "BTC" _ _ _ Cache.empty 0).2.2⟩

/-- Witness for C8 on a concrete two-event collection. -/
theorem c8_retention_witness :
    (∀ e ∈ (deleteOldLiquidations
        [{ symbol := "A", side := Side.longLiquidation, price := 1, quantity := 1,
           time := "2023-11-12T00:00:00.000Z" },
         { symbol := "B", side := Side.shortLiquidation, price := 1, quantity := 1,
           time := "2023-11-15T00:00:00.000Z" }] "2023-11-14T00:00:00.000Z").1,
      isoLt e.time "2023-11-14T00:00:00.000Z" = false) ∧
    (deleteOldLiquidations
        [{ symbol := "A", side := Side.longLiquidation, price := 1, quantity := 1,
           time := "2023-11-12T00:00:00.000Z" },
         { symbol := "B", side := Side.shortLiquidation, price := 1, quantity := 1,
           time := "2023-11-15T00:00:00.000Z" }] "2023-11-14T00:00:00.000Z").2 = 1 :=
  ⟨(c8_retention _ "2023-11-14T00:00:00.000Z" 0).1, by decide⟩

end Crypto
